import Mathlib

/-!
Shallow embedding of the DAO single-choice proposal formulas of the wasmd
indexer/exporter, translated from
`src/data/formulas/contract/proposal/daoProposalSingle/formulas.ts`.

The query environment (accessors `get`, `getMap`, `getTransformationMatch`,
`getTransformationMap`, `getTransformationMatches`, `getDateKeyModified`,
`getDateKeyFirstSet`, `getDateKeyFirstSetWithValueMatch`,
`getDateFirstTransformed`) is external to the formula file and is modelled as
a structure of abstract point-in-time lookup functions, one per key family
actually used by the formulas.  JS `Date` timestamps are modelled as abstract
natural-number instants (the source only threads them through `toISOString`).
-/

/-- Timestamps attached to responses; the source formats JS dates with
`toISOString`, modelled here as abstract natural-number instants. -/
abbrev Timestamp := Nat

/-- Proposal status: the string members of `StatusEnum` together with the
object-shaped veto-timelock status carrying its expiration. -/
inductive Status where
  | Open
  | Rejected
  | Passed
  | Executed
  | ExecutionFailed
  | Closed
  | VetoTimelock (expiration : Nat)
  deriving DecidableEq, Repr, Inhabited

/-- Veto configuration attached to a proposal (`proposal.veto`), carrying the
timelock duration.  Durations are modelled from the spec as block counts. -/
structure VetoConfig where
  timelock_duration : Nat
  deriving DecidableEq, Repr, Inhabited

/-- The fields of `SingleChoiceProposal` that the formulas read: the stored
status, the proposal's own expiration, and the optional veto configuration.
Modelled from the spec: the proposal/`Expiration` types come from type modules
absent from the provided sources; per the spec an expiration is compared
against the query-time block height, so it is modelled as a block height. -/
structure SingleChoiceProposal where
  status : Status
  expiration : Nat
  veto : Option VetoConfig
  deriving DecidableEq, Repr, Inhabited

/-- An opaque ballot payload (the formulas only thread ballots through). -/
structure Ballot where
  power : Nat
  deriving DecidableEq, Repr, Inhabited

/-- A `voteCast:<voter>:<proposalId>` transformation value. -/
structure VoteCastRec where
  voter : String
  vote : Ballot
  votedAt : Option Timestamp
  deriving DecidableEq, Repr, Inhabited

/-- The concrete value predicates the formulas pass to the first-set /
first-transformed timestamp accessors: status in [executed, execution_failed],
status = closed, status in [passed, rejected]. -/
inductive StatusFilter where
  | executedOrFailed
  | closed
  | passedOrRejected
  deriving DecidableEq, Repr

/-- Point-in-time query environment as seen by the proposal formulas: the
query height plus one abstract read-only accessor per key family the formulas
touch.  `none` is the accessors' `absent`; for the map/matches accessors
`none` is "no index at all" while `some []` is "indexed but empty" (the JS
code distinguishes them by falsiness: an empty object/array is truthy).
The pass/reject tally predicates (`isPassed`/`isRejected` from `./status`,
absent from the provided sources) are modelled from the spec: the vote tally
rule is computed externally and provided as a predicate result. -/
structure Env where
  height : Nat
  isPassed : SingleChoiceProposal → Bool
  isRejected : SingleChoiceProposal → Bool
  /-- Accessor `getTransformationMatch(contract, 'proposal:<id>')`, keyed by the raw
  id string interpolated into the name. -/
  getTransformationMatchProposal : String → Option SingleChoiceProposal
  /-- Accessor `getTransformationMap(contract, 'proposal')`. -/
  getTransformationMapProposal : Option (List (Nat × SingleChoiceProposal))
  /-- Accessor `get(contract, 'proposals_v2', id)`. -/
  getProposalsV2 : Nat → Option SingleChoiceProposal
  /-- Accessor `get(contract, 'proposals', id)`. -/
  getProposalsV1 : Nat → Option SingleChoiceProposal
  /-- Accessor `getMap(contract, 'proposals_v2')`. -/
  getMapProposalsV2 : Option (List (Nat × SingleChoiceProposal))
  /-- Accessor `getMap(contract, 'proposals')`. -/
  getMapProposalsV1 : Option (List (Nat × SingleChoiceProposal))
  /-- Accessor `getDateFirstTransformed(contract, 'proposal:<id>', valueFilter?)`. -/
  getDateFirstTransformedProposal : Nat → Option StatusFilter → Option Timestamp
  /-- Accessor `getDateKeyFirstSetWithValueMatch(contract, [schema, id], valueFilter)`
  where schema is the raw key `proposals_v2` or `proposals`. -/
  getDateKeyFirstSetWithValueMatch : String → Nat → StatusFilter → Option Timestamp
  /-- Accessor `getDateKeyFirstSet(contract, schema, id)`. -/
  getDateKeyFirstSet : String → Nat → Option Timestamp
  /-- Accessor `getTransformationMatch(contract, 'voteCast:<voter>:<proposalId>')`,
  keyed by the raw voter and proposal-id strings. -/
  getTransformationMatchVoteCast : String → String → Option VoteCastRec
  /-- Accessor `getTransformationMatches(contract, 'voteCast:*:<proposalId>',
  nameRange?, limit?)`: the proposal-id string, the `startAfter` cursor
  passed as an open lower name bound when present, and the limit. -/
  getTransformationMatchesVoteCast :
    String → Option String → Option Nat → Option (List VoteCastRec)
  /-- Accessor `getMap(contract, ['ballots', proposalId])`; the key is `none` when the
  source interpolates a NaN `Number(...)` result. -/
  getMapBallots : Option Int → Option (List (String × Ballot))
  /-- Accessor `get(contract, 'ballots', proposalId, voter)`. -/
  getBallot : Option Int → String → Option Ballot
  /-- Accessor `getDateKeyModified(contract, 'ballots', proposalId, voter)`. -/
  getDateKeyModifiedBallots : Option Int → String → Option Timestamp
  /-- Accessor `get(contract, 'proposal_count')`. -/
  getProposalCount : Option Nat

/-- Modelled from the spec: `isExpirationExpired` from the shared `utils`
module (absent from the provided sources); an expiration has elapsed when the
query-time block height has reached it. -/
def isExpirationExpired (env : Env) (e : Nat) : Bool :=
  decide (e ≤ env.height)

/-- Modelled from the spec: `expirationPlusDuration` from the shared `utils`
module (absent from the provided sources); the veto expiration is the
proposal's expiration plus the timelock duration. -/
def expirationPlusDuration (e d : Nat) : Nat := e + d

/-- The status-update block at the top of `intoResponse` (source lines
474-508): derive the point-in-time status from the stored status, the pass /
reject predicates, and the query-time expiration checks. -/
def updateStatus (env : Env) (p : SingleChoiceProposal) : Status :=
  match p.status with
  | Status.Open =>
    if env.isPassed p then
      match p.veto with
      | some v =>
        let expiration := expirationPlusDuration p.expiration v.timelock_duration
        if isExpirationExpired env expiration then Status.Passed
        else Status.VetoTimelock expiration
      | none => Status.Passed
    else if isExpirationExpired env p.expiration || env.isRejected p then
      Status.Rejected
    else Status.Open
  | Status.VetoTimelock e =>
    if isExpirationExpired env e then Status.Passed else Status.VetoTimelock e
  | s => s

/-- A single decimal digit of a JS numeric string. -/
def charDigit? (c : Char) : Option Nat :=
  if 48 ≤ c.toNat ∧ c.toNat ≤ 57 then some (c.toNat - 48) else none

/-- Accumulate decimal digits; fails on the first non-digit. -/
def parseDigitsAux : List Char → Nat → Option Nat
  | [], acc => some acc
  | c :: cs, acc =>
    match charDigit? c with
    | some d => parseDigitsAux cs (acc * 10 + d)
    | none => none

/-- JS `Number(s)` restricted to optionally-signed decimal integer strings,
the shapes the formulas' id arguments take; `none` models `NaN`. -/
def jsParseInt? (s : String) : Option Int :=
  match s.data with
  | [] => none
  | '-' :: cs =>
    match cs with
    | [] => none
    | _ => (parseDigitsAux cs 0).map (fun n => -(n : Int))
  | cs => (parseDigitsAux cs 0).map (fun n => (n : Int))

/-- The guard `!x || isNaN(Number(x)) || Number(x) < 0` shared by the
`proposal`, `listVotes`, `voteCount` and `proposalCreatedAt` formulas:
`some n` exactly when the required id argument is present, non-empty, numeric
and non-negative. -/
def validNumericId : Option String → Option Nat
  | none => none
  | some s =>
    if s = "" then none
    else
      match jsParseInt? s with
      | some n => if n < 0 then none else some n.toNat
      | none => none

/-- The raw schema key remembered by the dual-schema fallback:
`v2 ? 'proposals_v2' : 'proposals'`. -/
def rawSchema (v2 : Bool) : String := if v2 then "proposals_v2" else "proposals"

/-- The `proposalCreatedAt` formula (source lines 397-418): validate the id,
then earliest `proposal:<id>` transformation, falling back to the first set
date of the v2 then the v1 raw key. -/
def proposalCreatedAtCompute (env : Env) (id : Option String) :
    Except String (Option Timestamp) :=
  match validNumericId id with
  | none => Except.error "missing `id`"
  | some idNum =>
    Except.ok <|
      (env.getDateFirstTransformedProposal idNum none).orElse fun _ =>
        (env.getDateKeyFirstSet "proposals_v2" idNum).orElse fun _ =>
          env.getDateKeyFirstSet "proposals" idNum

/-- The `executedAt` lookup of `intoResponse`: earliest executed or
execution-failed fact, transformation first, then the remembered raw schema. -/
def executedAtLookup (env : Env) (id : Nat) (v2 : Bool) : Option Timestamp :=
  (env.getDateFirstTransformedProposal id (some StatusFilter.executedOrFailed)).orElse
    fun _ =>
      env.getDateKeyFirstSetWithValueMatch (rawSchema v2) id
        StatusFilter.executedOrFailed

/-- The `closedAt` lookup of `intoResponse`: earliest closed fact,
transformation first, then the remembered raw schema. -/
def closedAtLookup (env : Env) (id : Nat) (v2 : Bool) : Option Timestamp :=
  (env.getDateFirstTransformedProposal id (some StatusFilter.closed)).orElse
    fun _ =>
      env.getDateKeyFirstSetWithValueMatch (rawSchema v2) id StatusFilter.closed

/-- The passed/rejected lookup used for `completedAt` in `intoResponse`:
earliest passed or rejected fact, transformation first, then the remembered
raw schema. -/
def passedRejectedLookup (env : Env) (id : Nat) (v2 : Bool) : Option Timestamp :=
  (env.getDateFirstTransformedProposal id (some StatusFilter.passedOrRejected)).orElse
    fun _ =>
      env.getDateKeyFirstSetWithValueMatch (rawSchema v2) id
        StatusFilter.passedOrRejected

/-- The value produced for one proposal by a lifecycle formula. -/
structure ProposalResponse where
  id : Nat
  proposal : SingleChoiceProposal
  createdAt : Option Timestamp
  completedAt : Option Timestamp
  executedAt : Option Timestamp
  closedAt : Option Timestamp
  deriving DecidableEq, Repr, Inhabited

/-- The `intoResponse` helper (source lines 468-604): update the status at
query time, then attach the created/executed/closed/completed timestamps.
The `createdAt` sub-call cannot actually error (a `Nat` prints as a valid
id string), so its error branch is mapped to `absent`. -/
def intoResponse (env : Env) (p0 : SingleChoiceProposal) (id : Nat) (v2 : Bool) :
    ProposalResponse :=
  let p : SingleChoiceProposal := { p0 with status := updateStatus env p0 }
  let createdAt :=
    match proposalCreatedAtCompute env (some (toString id)) with
    | Except.ok t => t
    | Except.error _ => none
  let executedAt :=
    if p.status = Status.Executed ∨ p.status = Status.ExecutionFailed then
      executedAtLookup env id v2
    else none
  let closedAt :=
    if p.status = Status.Closed then closedAtLookup env id v2 else none
  let completedAt :=
    if p.status ≠ Status.Open then
      executedAt.orElse fun _ =>
        closedAt.orElse fun _ => passedRejectedLookup env id v2
    else none
  { id := id, proposal := p, createdAt := createdAt, completedAt := completedAt,
    executedAt := executedAt, closedAt := closedAt }

/-- The `proposal` formula (source lines 23-73): validate the id, then the
`proposal:<id>` transformation, falling back to the v2 then the v1 raw key,
remembering which raw schema matched. -/
def proposalCompute (env : Env) (id : Option String) :
    Except String (Option ProposalResponse) :=
  match id with
  | none => Except.error "missing `id`"
  | some s =>
    match validNumericId (some s) with
    | none => Except.error "missing `id`"
    | some idNum =>
      match env.getTransformationMatchProposal ("proposal:" ++ s) with
      | some p => Except.ok (some (intoResponse env p idNum false))
      | none =>
        match env.getProposalsV2 idNum with
        | some p => Except.ok (some (intoResponse env p idNum true))
        | none =>
          match env.getProposalsV1 idNum with
          | some p => Except.ok (some (intoResponse env p idNum false))
          | none => Except.ok none

/-- Ascending cursor filter of `listProposals` (source lines 94-97, 134):
`id > (startAfter ? Math.max(0, Number(startAfter)) : -Infinity)`; a `NaN`
comparison is always false. -/
def idAfterCursor (startAfter : Option String) (id : Nat) : Bool :=
  match startAfter with
  | none => true
  | some s =>
    if s = "" then true
    else
      match jsParseInt? s with
      | some n => decide (max 0 n < (id : Int))
      | none => false

/-- Descending cursor filter of `reverseProposals` (source lines 170-173,
210): `id < (startBefore ? Math.max(0, Number(startBefore)) : Infinity)`. -/
def idBeforeCursor (startBefore : Option String) (id : Nat) : Bool :=
  match startBefore with
  | none => true
  | some s =>
    if s = "" then true
    else
      match jsParseInt? s with
      | some n => decide ((id : Int) < max 0 n)
      | none => false

/-- Truncation `slice(0, limit ? Math.max(0, Number(limit)) : Infinity)`; slicing to a
`NaN` bound yields the empty list. -/
def takeLimit (limit : Option String) (l : List α) : List α :=
  match limit with
  | none => l
  | some s =>
    if s = "" then l
    else
      match jsParseInt? s with
      | some n => l.take n.toNat
      | none => []

/-- JS truthiness of an optional string argument. -/
def truthyStr : Option String → Option String
  | none => none
  | some s => if s = "" then none else some s

/-- The `limit ? Math.max(0, Number(limit)) : undefined` argument forwarded
to the transformation matcher by `listVotes`. -/
def limitArgOf : Option String → Option Nat
  | none => none
  | some s => if s = "" then none else some (((jsParseInt? s).getD 0).toNat)

/-- The dual-schema fallback shared (inlined verbatim in the source) by
`listProposals` and `reverseProposals` (source lines 99-124 and 175-200):
transformation map first, then the v2 raw map, then the v1 raw map, tagging
which raw schema matched. -/
def resolveProposalsMapSource (env : Env) :
    Option (List (Nat × SingleChoiceProposal) × Bool) :=
  match env.getTransformationMapProposal with
  | some m => some (m, false)
  | none =>
    match env.getMapProposalsV2 with
    | some m => some (m, true)
    | none => env.getMapProposalsV1.map (fun m => (m, false))

/-- Condition `filter === 'passed'` keeps only passed, executed and execution-failed
proposals (source lines 141-147). -/
def isPassedFilterMatch (s : Status) : Bool :=
  decide (s = Status.Passed) || decide (s = Status.Executed) ||
    decide (s = Status.ExecutionFailed)

/-- The `listProposals` formula (source lines 75-151): resolve the proposal
map with the dual-schema fallback, page the ids ascending, derive each
response, then apply the optional status filter to the page. -/
def listProposalsCompute (env : Env) (limit startAfter filter : Option String) :
    List ProposalResponse :=
  match resolveProposalsMapSource env with
  | none => []
  | some (proposals, v2) =>
    let proposalIds :=
      takeLimit limit
        (((proposals.map Prod.fst).insertionSort (· ≤ ·)).filter
          (idAfterCursor startAfter))
    let responses := proposalIds.map fun id =>
      intoResponse env ((proposals.lookup id).getD default) id v2
    if filter = some "passed" then
      responses.filter fun r => isPassedFilterMatch r.proposal.status
    else responses

/-- The `reverseProposals` formula (source lines 153-219): same fallback,
page the ids descending below the `startBefore` cursor. -/
def reverseProposalsCompute (env : Env) (limit startBefore : Option String) :
    List ProposalResponse :=
  match resolveProposalsMapSource env with
  | none => []
  | some (proposals, v2) =>
    let proposalIds :=
      takeLimit limit
        (((proposals.map Prod.fst).insertionSort (· ≥ ·)).filter
          (idBeforeCursor startBefore))
    proposalIds.map fun id =>
      intoResponse env ((proposals.lookup id).getD default) id v2

/-- Codepoint-wise lexicographic comparison of strings as character lists,
modelling the source's `localeCompare` ordering of voter addresses. -/
def ltCharList : List Char → List Char → Bool
  | [], [] => false
  | [], _ :: _ => true
  | _ :: _, [] => false
  | a :: as, b :: bs =>
    if a.toNat < b.toNat then true
    else if b.toNat < a.toNat then false
    else ltCharList as bs

/-- Strict string order used for the `startAfter` voter cursor. -/
def ltStr (a b : String) : Bool := ltCharList a.data b.data

/-- Non-strict string order used to sort voters ascending. -/
def leStr (a b : String) : Bool := !(ltCharList b.data a.data)

/-- Guard `!startAfter || voter.localeCompare(startAfter) > 0` (source line 339). -/
def voterAfterCursor (startAfter : Option String) (v : String) : Bool :=
  match startAfter with
  | none => true
  | some sa => if sa = "" then true else ltStr sa v

/-- The voter page of the raw-event fallback of `listVotes` (source lines
336-340): ballot keys sorted ascending, filtered by the cursor, truncated. -/
def fallbackVotersPage (env : Env) (idNum : Nat) (limit startAfter : Option String) :
    List String :=
  let ballots := (env.getMapBallots (some (idNum : Int))).getD []
  takeLimit limit
    (((ballots.map Prod.fst).insertionSort (fun a b => leStr a b = true)).filter
      (voterAfterCursor startAfter))

/-- The value produced for one vote: `{ voter, ...vote, votedAt }` (the JS
spread of the ballot's fields is kept as a nested `vote` field). -/
structure VoteInfo where
  voter : String
  vote : Ballot
  votedAt : Option Timestamp
  deriving DecidableEq, Repr, Inhabited

/-- The `listVotes` formula (source lines 293-371): validate the proposal id,
consult the `voteCast:*:<id>` transformation matches (cursor and limit pushed
into the matcher), and when no transformation index exists fall back to the
raw ballots map, skipping per-voter timestamp resolution on pages of more
than 50 voters. -/
def listVotesCompute (env : Env) (proposalId limit startAfter : Option String) :
    Except String (List VoteInfo) :=
  match validNumericId proposalId with
  | none => Except.error "missing `proposalId`"
  | some idNum =>
    let pidStr := proposalId.getD ""
    let votesCast : List VoteCastRec :=
      match env.getTransformationMatchesVoteCast pidStr (truthyStr startAfter)
          (limitArgOf limit) with
      | some vcs => vcs
      | none =>
        let ballots := (env.getMapBallots (some (idNum : Int))).getD []
        let voters := fallbackVotersPage env idNum limit startAfter
        if voters.length ≤ 50 then
          (voters.zip (voters.map fun v =>
            env.getDateKeyModifiedBallots (some (idNum : Int)) v)).map fun vt =>
            { voter := vt.1, vote := (ballots.lookup vt.1).getD default,
              votedAt := vt.2 }
        else
          voters.map fun v =>
            { voter := v, vote := (ballots.lookup v).getD default,
              votedAt := none }
    Except.ok (votesCast.map fun vc =>
      { voter := vc.voter, vote := vc.vote, votedAt := vc.votedAt })

/-- The `vote` formula (source lines 231-291): only the presence (JS
truthiness) of `proposalId` and `voter` is checked; then the
`voteCast:<voter>:<proposalId>` transformation, falling back to the raw
ballot and its last-modified date. -/
def voteCompute (env : Env) (proposalId voter : Option String) :
    Except String (Option VoteInfo) :=
  match proposalId with
  | none => Except.error "missing `proposalId`"
  | some pid =>
    if pid = "" then Except.error "missing `proposalId`"
    else
      match voter with
      | none => Except.error "missing `voter`"
      | some v =>
        if v = "" then Except.error "missing `voter`"
        else
          let voteCast : Option VoteCastRec :=
            match env.getTransformationMatchVoteCast v pid with
            | some vc => some vc
            | none =>
              match env.getBallot (jsParseInt? pid) v with
              | some ballot =>
                some { voter := v, vote := ballot,
                       votedAt := env.getDateKeyModifiedBallots (jsParseInt? pid) v }
              | none => none
          Except.ok (voteCast.map fun vc =>
            { voter := v, vote := vc.vote, votedAt := vc.votedAt })

/-- An item of `openProposals`: the proposal response plus the optional
voted flag added when an address argument is given. -/
structure OpenProposalItem where
  response : ProposalResponse
  voted : Option Bool
  deriving DecidableEq, Repr, Inhabited

/-- The `openProposals` formula (source lines 422-463): all proposals whose
derived status is open, each tagged with whether the given address has cast a
vote (via the single-vote formula). -/
def openProposalsCompute (env : Env) (address : Option String) :
    List OpenProposalItem :=
  let opens := (listProposalsCompute env none none none).filter
    fun r => decide (r.proposal.status = Status.Open)
  match truthyStr address with
  | none => opens.map fun r => { response := r, voted := none }
  | some addr =>
    opens.map fun r =>
      { response := r,
        voted := some (match voteCompute env (some (toString r.id)) (some addr) with
          | Except.ok (some _) => true
          | _ => false) }

/-- A query environment with every accessor absent; query height 100. -/
def baseEnv : Env :=
  { height := 100
    isPassed := fun _ => false
    isRejected := fun _ => false
    getTransformationMatchProposal := fun _ => none
    getTransformationMapProposal := none
    getProposalsV2 := fun _ => none
    getProposalsV1 := fun _ => none
    getMapProposalsV2 := none
    getMapProposalsV1 := none
    getDateFirstTransformedProposal := fun _ _ => none
    getDateKeyFirstSetWithValueMatch := fun _ _ _ => none
    getDateKeyFirstSet := fun _ _ => none
    getTransformationMatchVoteCast := fun _ _ => none
    getTransformationMatchesVoteCast := fun _ _ _ => none
    getMapBallots := fun _ => none
    getBallot := fun _ _ => none
    getDateKeyModifiedBallots := fun _ _ => none
    getProposalCount := none }

/-- An environment whose pass predicate always holds. -/
def envAllPass : Env := { baseEnv with isPassed := fun _ => true }

/-- An open proposal with a 10-block veto timelock expiring at 95 + 10. -/
def propVeto : SingleChoiceProposal :=
  { status := Status.Open, expiration := 95,
    veto := some { timelock_duration := 10 } }

/-- An environment where the executed and passed/rejected timestamp lookups
answer only through the raw v2 schema. -/
def envTimestamps : Env :=
  { baseEnv with
    getDateKeyFirstSetWithValueMatch := fun schema _ f =>
      if schema = "proposals_v2" then
        match f with
        | StatusFilter.executedOrFailed => some 77
        | StatusFilter.closed => none
        | StatusFilter.passedOrRejected => some 55
      else none }

/-- A proposal stored under the raw v2 schema as executed, with only the raw
v2 timestamp lookup answering. -/
def envV2Exec : Env :=
  { envTimestamps with
    getProposalsV2 := fun id =>
      if id = 3 then
        some { status := Status.Executed, expiration := 0, veto := none }
      else none }

/-- An environment with two raw ballots for proposal 4 and no vote-cast
transformation index. -/
def envBallots : Env :=
  { baseEnv with
    getMapBallots := fun k =>
      if k = some 4 then
        some [("voterB", { power := 2 }), ("voterA", { power := 1 })]
      else none
    getDateKeyModifiedBallots := fun k v =>
      if k = some 4 then
        if v = "voterA" then some 11 else some 22
      else none }

/-- The ascending page as the spec words it: the stored ids strictly above
the cursor, sorted ascending, truncated to the limit after filtering. -/
def specAscendingPage (ids : List Nat) (startAfter limit : Option String) :
    List Nat :=
  takeLimit limit ((ids.filter (idAfterCursor startAfter)).insertionSort (· ≤ ·))

/-- The descending page as the spec words it: the stored ids strictly below
the cursor, in descending order, truncated to the limit after filtering. -/
def specDescendingPage (ids : List Nat) (startBefore limit : Option String) :
    List Nat :=
  takeLimit limit
    (((ids.filter (idBeforeCursor startBefore)).insertionSort (· ≤ ·)).reverse)

/-- A stably-open proposal: expiration far beyond the query height. -/
def pOpen : SingleChoiceProposal :=
  { status := Status.Open, expiration := 200, veto := none }

/-- The spec's pagination example: stored proposal ids 1, 3, 5, 7. -/
def mPage : List (Nat × SingleChoiceProposal) :=
  [(1, pOpen), (3, pOpen), (5, pOpen), (7, pOpen)]

/-- An environment indexing the four example proposals. -/
def envPage : Env := { baseEnv with getTransformationMapProposal := some mPage }

/-- A proposal stored as already passed. -/
def pStoredPassed : SingleChoiceProposal :=
  { status := Status.Passed, expiration := 0, veto := none }

/-- Three stored proposals: ids 1 and 2 stay open, id 3 is passed. -/
def mThree : List (Nat × SingleChoiceProposal) :=
  [(1, pOpen), (2, pOpen), (3, pStoredPassed)]

/-- An environment indexing those three proposals. -/
def envThree : Env :=
  { baseEnv with getTransformationMapProposal := some mThree }

/-- A model of `Promise.all` over `n` dispatched sub-computations: the slots
are written in an arbitrary completion order given by `sched` (each entry
names the slot that finishes at that point; out-of-range entries are ignored)
into a result array indexed by dispatch position, collected afterwards. -/
def promiseAllSched (n : Nat) (f : Nat → α) (sched : List Nat) :
    List (Option α) :=
  sched.foldl (fun acc i => acc.set i (some (f i))) (List.replicate n none)

/-- Formula `listProposals` with its `Promise.all` dispatch of per-id `intoResponse`
computations given an explicit completion schedule. -/
def listProposalsComputeSched (env : Env)
    (limit startAfter filter : Option String) (sched : List Nat) :
    List ProposalResponse :=
  match resolveProposalsMapSource env with
  | none => []
  | some (proposals, v2) =>
    let proposalIds :=
      takeLimit limit
        (((proposals.map Prod.fst).insertionSort (· ≤ ·)).filter
          (idAfterCursor startAfter))
    let responses :=
      (promiseAllSched proposalIds.length
        (fun k =>
          intoResponse env
            ((proposals.lookup (proposalIds.getD k 0)).getD default)
            (proposalIds.getD k 0) v2) sched).reduceOption
    if filter = some "passed" then
      responses.filter fun r => isPassedFilterMatch r.proposal.status
    else responses

/-- Formula `reverseProposals` with an explicit completion schedule. -/
def reverseProposalsComputeSched (env : Env)
    (limit startBefore : Option String) (sched : List Nat) :
    List ProposalResponse :=
  match resolveProposalsMapSource env with
  | none => []
  | some (proposals, v2) =>
    let proposalIds :=
      takeLimit limit
        (((proposals.map Prod.fst).insertionSort (· ≥ ·)).filter
          (idBeforeCursor startBefore))
    (promiseAllSched proposalIds.length
      (fun k =>
        intoResponse env
          ((proposals.lookup (proposalIds.getD k 0)).getD default)
          (proposalIds.getD k 0) v2) sched).reduceOption

/-- Formula `openProposals` with explicit completion schedules for the nested
`listProposals` dispatch and for the per-proposal vote dispatch. -/
def openProposalsComputeSched (env : Env) (address : Option String)
    (schedList schedVotes : List Nat) : List OpenProposalItem :=
  let opens := (listProposalsComputeSched env none none none schedList).filter
    fun r => decide (r.proposal.status = Status.Open)
  match truthyStr address with
  | none => opens.map fun r => { response := r, voted := none }
  | some addr =>
    let votes :=
      (promiseAllSched opens.length
        (fun k => voteCompute env (some (toString ((opens.getD k default).id)))
          (some addr)) schedVotes).reduceOption
    (opens.zip votes).map fun rv =>
      { response := rv.1,
        voted := some (match rv.2 with
          | Except.ok (some _) => true
          | _ => false) }

/-- Claim C1: from a stored open status whose pass condition holds, the
derived status is the veto timelock at the proposal's expiration plus the
timelock duration unless that computed expiration has already elapsed at
query time (then passed), and directly passed when no veto is configured;
a stored veto-timelock status derives to passed exactly when its expiration
has elapsed at query time. -/
theorem claim1_open_passed_and_veto_derivation (env : Env) :
    (∀ p v, p.status = Status.Open → env.isPassed p = true → p.veto = some v →
      updateStatus env p =
        (if isExpirationExpired env
            (expirationPlusDuration p.expiration v.timelock_duration) then
          Status.Passed
        else
          Status.VetoTimelock
            (expirationPlusDuration p.expiration v.timelock_duration))) ∧
    (∀ p, p.status = Status.Open → env.isPassed p = true → p.veto = none →
      updateStatus env p = Status.Passed) ∧
    (∀ p e, p.status = Status.VetoTimelock e →
      (updateStatus env p = Status.Passed ↔ isExpirationExpired env e = true)) := by
  refine ⟨?_, ?_, ?_⟩
  · intro p v hs hp hv
    simp [updateStatus, hs, hp, hv]
  · intro p hs hp hv
    simp [updateStatus, hs, hp, hv]
  · intro p e hs
    constructor
    · intro h
      by_contra hne
      simp [updateStatus, hs, hne] at h
    · intro h
      simp [updateStatus, hs, h]

theorem claim1_open_passed_and_veto_derivation_witness :
    updateStatus envAllPass propVeto = Status.VetoTimelock 105 ∧
    updateStatus envAllPass
        { status := Status.VetoTimelock 99, expiration := 0, veto := none } =
      Status.Passed := by
  have h1 := (claim1_open_passed_and_veto_derivation envAllPass).1 propVeto
    { timelock_duration := 10 } rfl rfl rfl
  have h2 := ((claim1_open_passed_and_veto_derivation envAllPass).2.2
    { status := Status.VetoTimelock 99, expiration := 0, veto := none } 99 rfl).mpr
    (by decide)
  exact ⟨by simpa using h1, h2⟩

/-- Claim C5: from a stored open status whose pass condition does not hold,
the derived status is rejected when the proposal's own expiration has elapsed
at query time or the reject condition holds, and stays open otherwise. -/
theorem claim5_open_not_passed_derivation (env : Env) (p : SingleChoiceProposal)
    (hs : p.status = Status.Open) (hp : env.isPassed p = false) :
    updateStatus env p =
      (if isExpirationExpired env p.expiration || env.isRejected p then
        Status.Rejected
      else Status.Open) := by
  simp [updateStatus, hs, hp]

theorem claim5_open_not_passed_derivation_witness :
    updateStatus baseEnv { status := Status.Open, expiration := 50, veto := none } =
      Status.Rejected := by
  have h := claim5_open_not_passed_derivation baseEnv
    { status := Status.Open, expiration := 50, veto := none } rfl rfl
  simpa using h

/-- The four derived statuses the open branch of `updateStatus` can yield. -/
theorem updateStatus_open_cases (env : Env) (p : SingleChoiceProposal)
    (hs : p.status = Status.Open) :
    updateStatus env p = Status.Passed ∨ updateStatus env p = Status.Rejected ∨
    updateStatus env p = Status.Open ∨
    ∃ e, updateStatus env p = Status.VetoTimelock e := by
  simp only [updateStatus, hs]
  by_cases hip : env.isPassed p = true
  · rw [if_pos hip]
    rcases hv : p.veto with _ | v
    · simp [hv]
    · simp only [hv]
      split_ifs
      · exact Or.inl rfl
      · exact Or.inr (Or.inr (Or.inr ⟨_, rfl⟩))
  · rw [if_neg hip]
    split_ifs
    · exact Or.inr (Or.inl rfl)
    · exact Or.inr (Or.inr (Or.inl rfl))

/-- Claim C8: the status-derivation step never produces executed,
execution-failed, or closed from another stored status, and a stored status
that is neither open nor a veto timelock is carried into the response
unchanged. -/
theorem claim8_terminal_statuses_never_derived (env : Env) :
    (∀ p : SingleChoiceProposal,
      (updateStatus env p = Status.Executed ∨
       updateStatus env p = Status.ExecutionFailed ∨
       updateStatus env p = Status.Closed) →
      updateStatus env p = p.status) ∧
    (∀ (p : SingleChoiceProposal) (id : Nat) (v2 : Bool),
      p.status ≠ Status.Open → (∀ e, p.status ≠ Status.VetoTimelock e) →
      (intoResponse env p id v2).proposal.status = p.status) := by
  constructor
  · intro p h
    rcases hps : p.status with _ | _ | _ | _ | _ | _ | e
    · rcases updateStatus_open_cases env p hps with h4 | h4 | h4 | ⟨e, h4⟩ <;>
        rw [h4] at h <;> simp at h
    · simp [updateStatus, hps]
    · simp [updateStatus, hps]
    · simp [updateStatus, hps]
    · simp [updateStatus, hps]
    · simp [updateStatus, hps]
    · have h2 : updateStatus env p = Status.Passed ∨
          updateStatus env p = Status.VetoTimelock e := by
        simp only [updateStatus, hps]
        split_ifs
        · exact Or.inl rfl
        · exact Or.inr rfl
      rcases h2 with h2 | h2 <;> rw [h2] at h <;> simp at h
  · intro p id v2 hopen hveto
    have hkeep : updateStatus env p = p.status := by
      rcases hps : p.status with _ | _ | _ | _ | _ | _ | e
      · exact absurd hps hopen
      · simp [updateStatus, hps]
      · simp [updateStatus, hps]
      · simp [updateStatus, hps]
      · simp [updateStatus, hps]
      · simp [updateStatus, hps]
      · exact absurd hps (hveto e)
    simp [intoResponse, hkeep]

theorem claim8_terminal_statuses_never_derived_witness :
    (intoResponse baseEnv
        { status := Status.Executed, expiration := 0, veto := none } 1
        false).proposal.status = Status.Executed := by
  have h := (claim8_terminal_statuses_never_derived baseEnv).2
    { status := Status.Executed, expiration := 0, veto := none } 1 false
    (by simp) (by intro e; simp)
  simpa using h

/-- The derived status carried by a response. -/
lemma intoResponse_status (env : Env) (p : SingleChoiceProposal) (id : Nat)
    (v2 : Bool) :
    (intoResponse env p id v2).proposal.status = updateStatus env p := by
  simp [intoResponse]

/-- The `executedAt` field of a response, as a guarded lookup. -/
lemma intoResponse_executedAt (env : Env) (p : SingleChoiceProposal) (id : Nat)
    (v2 : Bool) :
    (intoResponse env p id v2).executedAt =
      if updateStatus env p = Status.Executed ∨
          updateStatus env p = Status.ExecutionFailed then
        executedAtLookup env id v2
      else none := by
  simp [intoResponse]

/-- The `closedAt` field of a response, as a guarded lookup. -/
lemma intoResponse_closedAt (env : Env) (p : SingleChoiceProposal) (id : Nat)
    (v2 : Bool) :
    (intoResponse env p id v2).closedAt =
      if updateStatus env p = Status.Closed then closedAtLookup env id v2
      else none := by
  simp [intoResponse]

/-- The `completedAt` field of a response, as the guarded preference chain. -/
lemma intoResponse_completedAt (env : Env) (p : SingleChoiceProposal) (id : Nat)
    (v2 : Bool) :
    (intoResponse env p id v2).completedAt =
      if updateStatus env p ≠ Status.Open then
        (intoResponse env p id v2).executedAt.orElse fun _ =>
          ((intoResponse env p id v2).closedAt.orElse fun _ =>
            passedRejectedLookup env id v2)
      else none := by
  simp [intoResponse]

/-- Claim C7: when the derived status is not open, `completedAt` is the first
present value among `executedAt`, `closedAt`, and the earliest
passed/rejected fact (transformation preferred over the matched raw schema);
when the derived status is open, all three of `completedAt`, `executedAt`,
`closedAt` are absent. -/
theorem claim7_completedAt_preference (env : Env) (p : SingleChoiceProposal)
    (id : Nat) (v2 : Bool) :
    ((intoResponse env p id v2).proposal.status = Status.Open →
      (intoResponse env p id v2).executedAt = none ∧
      (intoResponse env p id v2).closedAt = none ∧
      (intoResponse env p id v2).completedAt = none) ∧
    ((intoResponse env p id v2).proposal.status ≠ Status.Open →
      (intoResponse env p id v2).completedAt =
        (intoResponse env p id v2).executedAt.orElse fun _ =>
          ((intoResponse env p id v2).closedAt.orElse fun _ =>
            passedRejectedLookup env id v2)) := by
  rw [intoResponse_status]
  constructor
  · intro h
    rw [intoResponse_executedAt, intoResponse_closedAt, intoResponse_completedAt]
    simp [h]
  · intro h
    rw [intoResponse_completedAt, if_pos h]

theorem claim7_completedAt_preference_witness :
    (intoResponse envTimestamps
        { status := Status.Executed, expiration := 0, veto := none } 1
        true).completedAt = some 77 := by
  have h := (claim7_completedAt_preference envTimestamps
    { status := Status.Executed, expiration := 0, veto := none } 1 true).2
    (by rw [intoResponse_status]; decide)
  rw [h]
  decide

/-- Claim C2: ordered dual-schema fallback.  (a) The single-proposal formula
consults the `proposal:<id>` transformation first, then the raw v2 key, then
the raw v1 key, the first match winning and fixing the remembered-schema tag
(v2 exactly when the raw v2 key matched).  (b) The proposal map used by the
listing formula is resolved the same way at map level, and every response of
the page is derived with the remembered tag.  (c) The remembered tag selects
the raw schema used by the executed-at fallback lookup of the response. -/
theorem claim2_ordered_fallback_and_remembered_schema (env : Env) :
    (∀ s idNum, validNumericId (some s) = some idNum →
      (∀ p, env.getTransformationMatchProposal ("proposal:" ++ s) = some p →
        proposalCompute env (some s) =
          Except.ok (some (intoResponse env p idNum false))) ∧
      (env.getTransformationMatchProposal ("proposal:" ++ s) = none →
        (∀ p, env.getProposalsV2 idNum = some p →
          proposalCompute env (some s) =
            Except.ok (some (intoResponse env p idNum true))) ∧
        (env.getProposalsV2 idNum = none →
          (∀ p, env.getProposalsV1 idNum = some p →
            proposalCompute env (some s) =
              Except.ok (some (intoResponse env p idNum false))) ∧
          (env.getProposalsV1 idNum = none →
            proposalCompute env (some s) = Except.ok none)))) ∧
    (∀ limit startAfter,
      (∀ m, env.getTransformationMapProposal = some m →
        listProposalsCompute env limit startAfter none =
          (takeLimit limit
            (((m.map Prod.fst).insertionSort (· ≤ ·)).filter
              (idAfterCursor startAfter))).map
            (fun id => intoResponse env ((m.lookup id).getD default) id false)) ∧
      (env.getTransformationMapProposal = none →
        (∀ m, env.getMapProposalsV2 = some m →
          listProposalsCompute env limit startAfter none =
            (takeLimit limit
              (((m.map Prod.fst).insertionSort (· ≤ ·)).filter
                (idAfterCursor startAfter))).map
              (fun id => intoResponse env ((m.lookup id).getD default) id true)) ∧
        (env.getMapProposalsV2 = none →
          ∀ m, env.getMapProposalsV1 = some m →
            listProposalsCompute env limit startAfter none =
              (takeLimit limit
                (((m.map Prod.fst).insertionSort (· ≤ ·)).filter
                  (idAfterCursor startAfter))).map
                (fun id => intoResponse env ((m.lookup id).getD default) id false)))) ∧
    (∀ s idNum p, validNumericId (some s) = some idNum →
      env.getTransformationMatchProposal ("proposal:" ++ s) = none →
      env.getProposalsV2 idNum = some p →
      updateStatus env p = Status.Executed →
      env.getDateFirstTransformedProposal idNum
          (some StatusFilter.executedOrFailed) = none →
      ∃ r, proposalCompute env (some s) = Except.ok (some r) ∧
        r.executedAt =
          env.getDateKeyFirstSetWithValueMatch "proposals_v2" idNum
            StatusFilter.executedOrFailed) := by
  refine ⟨?_, ?_, ?_⟩
  · intro s idNum hvalid
    refine ⟨?_, ?_⟩
    · intro p hp
      simp [proposalCompute, hvalid, hp]
    · intro htrans
      refine ⟨?_, ?_⟩
      · intro p hp
        simp [proposalCompute, hvalid, htrans, hp]
      · intro hv2
        refine ⟨?_, ?_⟩
        · intro p hp
          simp [proposalCompute, hvalid, htrans, hv2, hp]
        · intro hv1
          simp [proposalCompute, hvalid, htrans, hv2, hv1]
  · intro limit startAfter
    refine ⟨?_, ?_⟩
    · intro m hm
      simp [listProposalsCompute, resolveProposalsMapSource, hm]
    · intro htrans
      refine ⟨?_, ?_⟩
      · intro m hm
        simp [listProposalsCompute, resolveProposalsMapSource, htrans, hm]
      · intro hv2 m hm
        simp [listProposalsCompute, resolveProposalsMapSource, htrans, hv2, hm]
  · intro s idNum p hvalid htrans hv2 hexec hdft
    refine ⟨intoResponse env p idNum true, ?_, ?_⟩
    · simp [proposalCompute, hvalid, htrans, hv2]
    · rw [intoResponse_executedAt]
      simp [hexec, executedAtLookup, hdft, rawSchema, Option.orElse]

theorem claim2_ordered_fallback_and_remembered_schema_witness :
    proposalCompute envV2Exec (some "3") =
      Except.ok (some (intoResponse envV2Exec
        { status := Status.Executed, expiration := 0, veto := none } 3 true)) ∧
    ∃ r, proposalCompute envV2Exec (some "3") = Except.ok (some r) ∧
      r.executedAt = some 77 := by
  have h1 := (((claim2_ordered_fallback_and_remembered_schema envV2Exec).1
    "3" 3 (by decide)).2 rfl).1
    { status := Status.Executed, expiration := 0, veto := none } (by decide)
  have h2 := (claim2_ordered_fallback_and_remembered_schema envV2Exec).2.2
    "3" 3 { status := Status.Executed, expiration := 0, veto := none }
    (by decide) rfl (by decide) (by decide) rfl
  rcases h2 with ⟨r, hr, hex⟩
  exact ⟨h1, r, hr, by rw [hex]; decide⟩

/-- Claim C3 (amended): the single-proposal and vote-listing formulas raise a
validation error naming the offending field when their required numeric id is
missing, empty, non-numeric or negative — the error is independent of the
environment, i.e. raised before any accessor is consulted — and raise no
error on valid arguments.  The single-vote formula checks only presence and
non-emptiness of `proposalId` and `voter` (also before any accessor), and
raises no error otherwise, in particular not on a non-numeric or negative
proposal id. -/
theorem claim3_validation_amended (env env2 : Env) :
    (∀ id, validNumericId id = none →
      proposalCompute env id = Except.error "missing `id`" ∧
      proposalCompute env id = proposalCompute env2 id) ∧
    (∀ id n, validNumericId id = some n →
      ∀ msg, proposalCompute env id ≠ Except.error msg) ∧
    (∀ pid lim sa, validNumericId pid = none →
      listVotesCompute env pid lim sa = Except.error "missing `proposalId`" ∧
      listVotesCompute env pid lim sa = listVotesCompute env2 pid lim sa) ∧
    (∀ pid n lim sa, validNumericId pid = some n →
      ∀ msg, listVotesCompute env pid lim sa ≠ Except.error msg) ∧
    (∀ pid voter, truthyStr pid = none ∨ truthyStr voter = none →
      (voteCompute env pid voter = Except.error "missing `proposalId`" ∨
       voteCompute env pid voter = Except.error "missing `voter`") ∧
      voteCompute env pid voter = voteCompute env2 pid voter) ∧
    (∀ pid voter, truthyStr pid ≠ none → truthyStr voter ≠ none →
      ∀ msg, voteCompute env pid voter ≠ Except.error msg) := by
  refine ⟨?_, ?_, ?_, ?_, ?_, ?_⟩
  · intro id h
    rcases id with _ | s
    · exact ⟨rfl, rfl⟩
    · constructor <;> simp [proposalCompute, h]
  · intro id n h msg
    rcases id with _ | s
    · simp [validNumericId] at h
    · simp only [proposalCompute, h]
      rcases env.getTransformationMatchProposal ("proposal:" ++ s) with _ | p
      · rcases env.getProposalsV2 n with _ | p
        · rcases env.getProposalsV1 n with _ | p <;> simp
        · simp
      · simp
  · intro pid lim sa h
    constructor <;> simp [listVotesCompute, h]
  · intro pid n lim sa h msg
    simp [listVotesCompute, h]
  · intro pid voter h
    rcases pid with _ | ps
    · exact ⟨Or.inl rfl, rfl⟩
    · rcases hps : decide (ps = "") with _ | _
      · simp only [decide_eq_false_iff_not] at hps
        rcases voter with _ | vs
        · constructor
          · right
            simp [voteCompute, hps]
          · simp [voteCompute, hps]
        · rcases hvs : decide (vs = "") with _ | _
          · simp only [decide_eq_false_iff_not] at hvs
            exfalso
            rcases h with h | h <;> simp [truthyStr, hps, hvs] at h
          · simp only [decide_eq_true_eq] at hvs
            constructor
            · right
              simp [voteCompute, hps, hvs]
            · simp [voteCompute, hps, hvs]
      · simp only [decide_eq_true_eq] at hps
        constructor
        · left
          simp [voteCompute, hps]
        · simp [voteCompute, hps]
  · intro pid voter hpid hvoter msg
    rcases pid with _ | ps
    · simp [truthyStr] at hpid
    · rcases voter with _ | vs
      · simp [truthyStr] at hvoter
      · have hps : ¬ ps = "" := by
          by_contra hc
          simp [truthyStr, hc] at hpid
        have hvs : ¬ vs = "" := by
          by_contra hc
          simp [truthyStr, hc] at hvoter
        simp [voteCompute, hps, hvs]

/-- Claim C3 counterexample: invoking the single-vote formula with a negative
or non-numeric proposal id raises no validation error — it resolves normally
(here to an absent vote), contradicting the claim that every lifecycle
formula with a required id argument validates non-numeric and negative
ids. -/
theorem claim3_counterexample :
    voteCompute baseEnv (some "-1") (some "voterA") = Except.ok none ∧
    voteCompute baseEnv (some "abc") (some "voterA") = Except.ok none := by
  constructor <;> rfl

theorem claim3_validation_amended_witness :
    proposalCompute baseEnv (some "abc") = Except.error "missing `id`" ∧
    voteCompute baseEnv none (some "voterA") =
      Except.error "missing `proposalId`" := by
  have h1 := ((claim3_validation_amended baseEnv baseEnv).1 (some "abc")
    (by decide)).1
  have h2 := ((claim3_validation_amended baseEnv baseEnv).2.2.2.2.1 none
    (some "voterA") (Or.inl rfl)).1
  refine ⟨h1, ?_⟩
  rcases h2 with h2 | h2
  · exact h2
  · have hcontra : (Except.error "missing `proposalId`" :
        Except String (Option VoteInfo)) = Except.error "missing `voter`" := by
      rw [← h2]
      rfl
    simp at hcontra

/-- Claim C6: in the raw-event fallback of the vote listing, a filtered and
truncated page of more than 50 voters is returned with `votedAt` absent on
every vote; a page of at most 50 voters is returned with each vote's
`votedAt` the resolved last-modified timestamp of that voter's ballot. -/
theorem claim6_votedAt_skipped_on_large_pages (env : Env)
    (pid lim sa : Option String) (idNum : Nat)
    (hvalid : validNumericId pid = some idNum)
    (htrans : env.getTransformationMatchesVoteCast (pid.getD "")
      (truthyStr sa) (limitArgOf lim) = none) :
    (50 < (fallbackVotersPage env idNum lim sa).length →
      ∃ l, listVotesCompute env pid lim sa = Except.ok l ∧
        ∀ vi ∈ l, vi.votedAt = none) ∧
    ((fallbackVotersPage env idNum lim sa).length ≤ 50 →
      listVotesCompute env pid lim sa = Except.ok
        ((fallbackVotersPage env idNum lim sa).map fun v =>
          { voter := v,
            vote := (((env.getMapBallots (some (idNum : Int))).getD
              []).lookup v).getD default,
            votedAt :=
              env.getDateKeyModifiedBallots (some (idNum : Int)) v })) := by
  constructor
  · intro hlen
    have heq : listVotesCompute env pid lim sa = Except.ok
        ((fallbackVotersPage env idNum lim sa).map fun v =>
          ({ voter := v,
             vote := (((env.getMapBallots (some (idNum : Int))).getD
               []).lookup v).getD default,
             votedAt := none } : VoteInfo)) := by
      simp only [listVotesCompute, hvalid, htrans]
      rw [if_neg (by omega), List.map_map]
      rfl
    refine ⟨_, heq, ?_⟩
    intro vi hvi
    simp only [List.mem_map] at hvi
    rcases hvi with ⟨v, _, hveq⟩
    rw [← hveq]
  · intro hlen
    simp only [listVotesCompute, hvalid, htrans]
    rw [if_pos hlen]
    have hz : (fallbackVotersPage env idNum lim sa).zip
        ((fallbackVotersPage env idNum lim sa).map fun v =>
          env.getDateKeyModifiedBallots (some (idNum : Int)) v) =
        (fallbackVotersPage env idNum lim sa).map fun v =>
          (v, env.getDateKeyModifiedBallots (some (idNum : Int)) v) := by
      have h := List.zip_map' id
        (fun v => env.getDateKeyModifiedBallots (some (idNum : Int)) v)
        (fallbackVotersPage env idNum lim sa)
      simpa using h
    rw [hz, List.map_map, List.map_map]
    rfl

theorem claim6_votedAt_skipped_on_large_pages_witness :
    listVotesCompute envBallots (some "4") none none =
      Except.ok
        [{ voter := "voterA", vote := { power := 1 }, votedAt := some 11 },
         { voter := "voterB", vote := { power := 2 }, votedAt := some 22 }] := by
  have h := (claim6_votedAt_skipped_on_large_pages envBallots (some "4")
    none none 4 (by decide) rfl).2 (by decide)
  rw [h]
  exact congrArg Except.ok (by decide)

/-- Filtering commutes with the ascending sort of the ids. -/
lemma insertionSort_le_filter (l : List Nat) (p : Nat → Bool) :
    (l.insertionSort (· ≤ ·)).filter p = (l.filter p).insertionSort (· ≤ ·) := by
  apply List.eq_of_perm_of_sorted (r := (· ≤ ·))
  · exact ((List.perm_insertionSort _ l).filter p).trans
      (List.perm_insertionSort _ (l.filter p)).symm
  · exact (List.sorted_insertionSort _ l).filter p
  · exact List.sorted_insertionSort _ _

/-- The descending sort filtered is the reverse of the ascending sort of the
filtered ids. -/
lemma insertionSort_ge_filter_rev (l : List Nat) (p : Nat → Bool) :
    (l.insertionSort (· ≥ ·)).filter p =
      ((l.filter p).insertionSort (· ≤ ·)).reverse := by
  haveI : IsAntisymm Nat (· ≥ ·) := ⟨fun a b h1 h2 => le_antisymm h2 h1⟩
  haveI : IsTotal Nat (· ≥ ·) := ⟨fun a b => (le_total b a).imp id id⟩
  haveI : IsTrans Nat (· ≥ ·) := ⟨fun a b c h1 h2 => le_trans h2 h1⟩
  apply List.eq_of_perm_of_sorted (r := (· ≥ ·))
  · exact ((List.perm_insertionSort _ l).filter p).trans
      (((List.perm_insertionSort _ (l.filter p)).symm).trans
        (List.reverse_perm _).symm)
  · exact (List.sorted_insertionSort _ l).filter p
  · have hx0 : List.Sorted (· ≤ ·) ((l.filter p).insertionSort (· ≤ ·)) :=
      List.sorted_insertionSort (· ≤ ·) (l.filter p)
    have hx : List.Pairwise (fun a b : Nat => b ≥ a)
        ((l.filter p).insertionSort (· ≤ ·)) := hx0.imp (fun h => h)
    exact List.pairwise_reverse.mpr hx

/-- Claim C4: the ascending listing returns exactly the stored ids strictly
above the `startAfter` cursor, ascending, truncated to the limit after
filtering; the descending listing returns exactly the stored ids strictly
below the `startBefore` cursor, descending, truncated the same way. -/
theorem claim4_pagination_cursor_windows (env : Env)
    (m : List (Nat × SingleChoiceProposal)) (v2 : Bool)
    (limit startAfter startBefore : Option String)
    (hsrc : resolveProposalsMapSource env = some (m, v2)) :
    (listProposalsCompute env limit startAfter none).map (fun r => r.id) =
      specAscendingPage (m.map Prod.fst) startAfter limit ∧
    (reverseProposalsCompute env limit startBefore).map (fun r => r.id) =
      specDescendingPage (m.map Prod.fst) startBefore limit := by
  have hcomp : ((fun r : ProposalResponse => r.id) ∘
      fun id => intoResponse env ((m.lookup id).getD default) id v2) = id := by
    funext i
    rfl
  constructor
  · have hasc : listProposalsCompute env limit startAfter none =
        (takeLimit limit (((m.map Prod.fst).insertionSort (· ≤ ·)).filter
          (idAfterCursor startAfter))).map
          (fun id => intoResponse env ((m.lookup id).getD default) id v2) := by
      simp [listProposalsCompute, hsrc]
    rw [hasc, List.map_map, hcomp, List.map_id]
    unfold specAscendingPage
    rw [insertionSort_le_filter]
  · have hdesc : reverseProposalsCompute env limit startBefore =
        (takeLimit limit (((m.map Prod.fst).insertionSort (· ≥ ·)).filter
          (idBeforeCursor startBefore))).map
          (fun id => intoResponse env ((m.lookup id).getD default) id v2) := by
      simp [reverseProposalsCompute, hsrc]
    rw [hdesc, List.map_map, hcomp, List.map_id]
    unfold specDescendingPage
    rw [insertionSort_ge_filter_rev]

theorem claim4_pagination_cursor_windows_witness :
    (listProposalsCompute envPage (some "2") (some "3") none).map
      (fun r => r.id) = [5, 7] ∧
    (reverseProposalsCompute envPage none (some "5")).map
      (fun r => r.id) = [3, 1] := by
  have h1 := (claim4_pagination_cursor_windows envPage mPage false (some "2")
    (some "3") none rfl).1
  have h2 := (claim4_pagination_cursor_windows envPage mPage false none
    none (some "5") rfl).2
  constructor
  · rw [h1]
    decide
  · rw [h2]
    decide

/-- Claim C10: the `filter='passed'` status filter of the ascending listing
is applied to the page after the cursor filtering and limit truncation, not
before: the result is the paginated window, derived, then stripped of
non-passed responses (so the page may hold fewer than `limit` passed
proposals even when more exist beyond the window). -/
theorem claim10_status_filter_after_truncation (env : Env)
    (m : List (Nat × SingleChoiceProposal)) (v2 : Bool)
    (limit startAfter : Option String)
    (hsrc : resolveProposalsMapSource env = some (m, v2)) :
    listProposalsCompute env limit startAfter (some "passed") =
      ((specAscendingPage (m.map Prod.fst) startAfter limit).map
        (fun id => intoResponse env ((m.lookup id).getD default) id v2)).filter
        (fun r => isPassedFilterMatch r.proposal.status) := by
  have hbase : listProposalsCompute env limit startAfter (some "passed") =
      ((takeLimit limit (((m.map Prod.fst).insertionSort (· ≤ ·)).filter
        (idAfterCursor startAfter))).map
        (fun id => intoResponse env ((m.lookup id).getD default) id v2)).filter
        (fun r => isPassedFilterMatch r.proposal.status) := by
    simp [listProposalsCompute, hsrc]
  rw [hbase]
  unfold specAscendingPage
  rw [insertionSort_le_filter]

theorem claim10_status_filter_after_truncation_witness :
    listProposalsCompute envThree (some "2") none (some "passed") = [] ∧
    listProposalsCompute envThree none none (some "passed") ≠ [] := by
  have h1 := claim10_status_filter_after_truncation envThree mThree false
    (some "2") none rfl
  have h2 := claim10_status_filter_after_truncation envThree mThree false
    none none rfl
  constructor
  · rw [h1]
    decide
  · rw [h2]
    decide

lemma foldl_set_getElem? (sched : List Nat) (f : Nat → α)
    (acc : List (Option α)) (j : Nat) :
    (sched.foldl (fun a i => a.set i (some (f i))) acc)[j]? =
      if j ∈ sched ∧ j < acc.length then some (some (f j)) else acc[j]? := by
  induction sched generalizing acc with
  | nil => simp
  | cons i rest ih =>
    rw [List.foldl_cons, ih]
    by_cases hjr : j ∈ rest
    · by_cases hjl : j < acc.length
      · simp [hjr, hjl, List.length_set]
      · simp only [hjr, hjl, List.length_set, List.getElem?_set, true_and,
          and_false, if_false, List.mem_cons]
        by_cases hij : i = j
        · subst hij
          rw [if_pos rfl, if_neg hjl,
            List.getElem?_eq_none (Nat.le_of_not_lt hjl)]
        · rw [if_neg hij]
    · by_cases hij : i = j
      · subst hij
        by_cases hil : i < acc.length
        · simp [hjr, hil, List.length_set, List.getElem?_set]
        · simp [hjr, hil, List.length_set, List.getElem?_set,
            List.getElem?_eq_none (Nat.le_of_not_lt hil)]
      · have hji : ¬ j = i := fun h => hij h.symm
        simp [hjr, hij, hji, List.length_set, List.getElem?_set]

/-- With a completion schedule covering every dispatched slot, the collected
array is exactly the dispatch-ordered array of results. -/
lemma promiseAllSched_eq_map (n : Nat) (f : Nat → α) (sched : List Nat)
    (hcov : ∀ j, j < n → j ∈ sched) :
    promiseAllSched n f sched = (List.range n).map (fun i => some (f i)) := by
  apply List.ext_getElem?
  intro j
  rw [promiseAllSched, foldl_set_getElem?]
  by_cases hj : j < n
  · simp [hcov j hj, hj, List.getElem?_range hj]
  · simp [hj, List.getElem?_replicate,
      List.getElem?_eq_none (show (List.range n).length ≤ j by
        simpa using Nat.le_of_not_lt hj)]

lemma reduceOption_map_some (l : List α) (f : α → β) :
    (l.map fun a => some (f a)).reduceOption = l.map f := by
  induction l with
  | nil => rfl
  | cons a t ih => simp [List.reduceOption_cons_of_some, ih]

lemma range_length_map_getD (l : List α) (d : α) (g : α → β) :
    (List.range l.length).map (fun k => g (l.getD k d)) = l.map g := by
  apply List.ext_getElem
  · simp
  · intro i h1 h2
    simp only [List.length_map, List.length_range] at h1
    simp [List.getElem_map, List.getElem_range, List.getD_eq_getElem?_getD,
      List.getElem?_eq_getElem, h1]

lemma map_range_intoResponse (env : Env) (m : List (Nat × SingleChoiceProposal))
    (v2 : Bool) (L : List Nat) :
    (List.range L.length).map (fun k =>
      intoResponse env ((m.lookup (L.getD k 0)).getD default) (L.getD k 0) v2) =
      L.map (fun id => intoResponse env ((m.lookup id).getD default) id v2) :=
  range_length_map_getD L 0
    (fun id => intoResponse env ((m.lookup id).getD default) id v2)

lemma map_range_voteOf (env : Env) (addr : String)
    (L : List ProposalResponse) :
    (List.range L.length).map (fun k =>
      voteCompute env (some (toString ((L.getD k default).id))) (some addr)) =
      L.map (fun r => voteCompute env (some (toString r.id)) (some addr)) :=
  range_length_map_getD L default
    (fun r => voteCompute env (some (toString r.id)) (some addr))

lemma listProposalsComputeSched_eq (env : Env)
    (limit startAfter filter : Option String) (sched : List Nat)
    (hcov : ∀ j, j < (listProposalsCompute env limit startAfter none).length →
      j ∈ sched) :
    listProposalsComputeSched env limit startAfter filter sched =
      listProposalsCompute env limit startAfter filter := by
  rcases hsrc : resolveProposalsMapSource env with _ | ⟨m, v2⟩
  · simp [listProposalsComputeSched, listProposalsCompute, hsrc]
  · have hlen : (listProposalsCompute env limit startAfter none).length =
        (takeLimit limit (((m.map Prod.fst).insertionSort (· ≤ ·)).filter
          (idAfterCursor startAfter))).length := by
      simp [listProposalsCompute, hsrc]
    rw [hlen] at hcov
    simp only [listProposalsComputeSched, listProposalsCompute, hsrc]
    rw [promiseAllSched_eq_map _ _ _ hcov, reduceOption_map_some,
      map_range_intoResponse]

lemma reverseProposalsComputeSched_eq (env : Env)
    (limit startBefore : Option String) (sched : List Nat)
    (hcov : ∀ j, j < (reverseProposalsCompute env limit startBefore).length →
      j ∈ sched) :
    reverseProposalsComputeSched env limit startBefore sched =
      reverseProposalsCompute env limit startBefore := by
  rcases hsrc : resolveProposalsMapSource env with _ | ⟨m, v2⟩
  · simp [reverseProposalsComputeSched, reverseProposalsCompute, hsrc]
  · have hlen : (reverseProposalsCompute env limit startBefore).length =
        (takeLimit limit (((m.map Prod.fst).insertionSort (· ≥ ·)).filter
          (idBeforeCursor startBefore))).length := by
      simp [reverseProposalsCompute, hsrc]
    rw [hlen] at hcov
    simp only [reverseProposalsComputeSched, reverseProposalsCompute, hsrc]
    rw [promiseAllSched_eq_map _ _ _ hcov, reduceOption_map_some,
      map_range_intoResponse]

lemma openProposalsComputeSched_eq (env : Env) (address : Option String)
    (schedList schedVotes : List Nat)
    (hcovL : ∀ j, j < (listProposalsCompute env none none none).length →
      j ∈ schedList)
    (hcovV : ∀ j, j < ((listProposalsCompute env none none none).filter
      (fun r => decide (r.proposal.status = Status.Open))).length →
      j ∈ schedVotes) :
    openProposalsComputeSched env address schedList schedVotes =
      openProposalsCompute env address := by
  rcases htr : truthyStr address with _ | addr
  · simp only [openProposalsComputeSched, openProposalsCompute, htr,
      listProposalsComputeSched_eq env none none none schedList hcovL]
  · simp only [openProposalsComputeSched, openProposalsCompute, htr,
      listProposalsComputeSched_eq env none none none schedList hcovL]
    rw [promiseAllSched_eq_map _ _ _ hcovV, reduceOption_map_some,
      map_range_voteOf]
    have hz : ((listProposalsCompute env none none none).filter
        (fun r => decide (r.proposal.status = Status.Open))).zip
          (((listProposalsCompute env none none none).filter
            (fun r => decide (r.proposal.status = Status.Open))).map
            (fun r => voteCompute env (some (toString r.id)) (some addr))) =
        ((listProposalsCompute env none none none).filter
          (fun r => decide (r.proposal.status = Status.Open))).map
          (fun r => (r, voteCompute env (some (toString r.id)) (some addr))) := by
      simpa using List.zip_map' id
        (fun r : ProposalResponse =>
          voteCompute env (some (toString r.id)) (some addr))
        ((listProposalsCompute env none none none).filter
          (fun r => decide (r.proposal.status = Status.Open)))
    rw [hz, List.map_map]
    rfl

/-- Claim C9: formula evaluation is deterministic in the environment snapshot
and arguments — the scheduled model returns the same value for any two
covering completion schedules — and for the collection formulas (ascending
listing, descending listing, open proposals) the order of the returned
sequence equals the one fixed by the sort and cursor filter applied before
dispatch, independent of the completion order of the concurrent per-item
sub-evaluations. -/
theorem claim9_order_independent_of_completion (env : Env)
    (limit startAfter startBefore filter address : Option String)
    (schedA schedB schedR schedL schedV : List Nat)
    (hA : ∀ j, j < (listProposalsCompute env limit startAfter none).length →
      j ∈ schedA)
    (hB : ∀ j, j < (listProposalsCompute env limit startAfter none).length →
      j ∈ schedB)
    (hR : ∀ j, j < (reverseProposalsCompute env limit startBefore).length →
      j ∈ schedR)
    (hL : ∀ j, j < (listProposalsCompute env none none none).length →
      j ∈ schedL)
    (hV : ∀ j, j < ((listProposalsCompute env none none none).filter
      (fun r => decide (r.proposal.status = Status.Open))).length →
      j ∈ schedV) :
    listProposalsComputeSched env limit startAfter filter schedA =
      listProposalsCompute env limit startAfter filter ∧
    listProposalsComputeSched env limit startAfter filter schedA =
      listProposalsComputeSched env limit startAfter filter schedB ∧
    reverseProposalsComputeSched env limit startBefore schedR =
      reverseProposalsCompute env limit startBefore ∧
    openProposalsComputeSched env address schedL schedV =
      openProposalsCompute env address := by
  refine ⟨listProposalsComputeSched_eq env _ _ _ _ hA, ?_,
    reverseProposalsComputeSched_eq env _ _ _ hR,
    openProposalsComputeSched_eq env _ _ _ hL hV⟩
  rw [listProposalsComputeSched_eq env _ _ _ _ hA,
    listProposalsComputeSched_eq env _ _ _ _ hB]

theorem claim9_order_independent_of_completion_witness :
    listProposalsComputeSched envPage none none none [3, 1, 0, 2] =
      listProposalsCompute envPage none none none ∧
    openProposalsComputeSched envPage (some "voterA") [2, 3, 0, 1] [3, 2, 1, 0] =
      openProposalsCompute envPage (some "voterA") := by
  have hlen : (listProposalsCompute envPage none none none).length = 4 := by
    decide
  have hlenR : (reverseProposalsCompute envPage none none).length = 4 := by
    decide
  have hlenO : ((listProposalsCompute envPage none none none).filter
      (fun r => decide (r.proposal.status = Status.Open))).length = 4 := by
    decide
  have h := claim9_order_independent_of_completion envPage none none none
    none (some "voterA") [3, 1, 0, 2] [0, 1, 2, 3] [1, 0, 3, 2] [2, 3, 0, 1]
    [3, 2, 1, 0]
    (by intro j hj; rw [hlen] at hj; interval_cases j <;> decide)
    (by intro j hj; rw [hlen] at hj; interval_cases j <;> decide)
    (by intro j hj; rw [hlenR] at hj; interval_cases j <;> decide)
    (by intro j hj; rw [hlen] at hj; interval_cases j <;> decide)
    (by intro j hj; rw [hlenO] at hj; interval_cases j <;> decide)
  exact ⟨h.1, h.2.2.2⟩
